import Mathlib

/-!
Verification of the cargo-scan driver script (`scripts/scan.py`): a shallow
embedding of its result-stream parser, aggregation loop, CSV helpers and
report renderers, together with theorems settling the specified properties.

Conventions of the embedding:
* a subprocess output stream is modelled as the list of its lines, in order,
  without their terminating newlines (what `iter(proc.stdout.readline, b"")`
  yields, before `strip`); Python `str.strip()` is modelled by list-of-char
  functions that are structurally recursive so that the kernel can evaluate
  concrete instances;
* a Python `dict` is modelled as an association list in insertion order
  (CPython dicts preserve insertion order);
* Python exceptions raised while parsing one package's stream
  (`AssertionError`, `StopIteration` from `next()` on an exhausted stream,
  `IndexError` from a positional field access) are modelled by the error
  side of `Except`; all of them abort processing of that package.
-/

set_option maxRecDepth 100000

namespace CargoScan

/-- Fixed finding-record header string emitted by the external scanner
(`CARGO_SCAN_CSV_HEADER`, scan.py line 42). -/
def CARGO_SCAN_CSV_HEADER : String :=
  "crate, fn_decl, callee, effect, dir, file, line, col"

/-- Fixed metadata-record header string emitted by the external scanner
(`CARGO_SCAN_METADATA_HEADER`, scan.py line 43). -/
def CARGO_SCAN_METADATA_HEADER : String :=
  "total, loc_lb, loc_ub, macros, loc_lb, loc_ub, conditional_code, loc_lb, loc_ub, skipped_calls, loc_lb, loc_ub, skipped_fn_ptrs, loc_lb, loc_ub, skipped_other, loc_lb, loc_ub, unsafe_trait, loc_lb, loc_ub, unsafe_impl, loc_lb, loc_ub, pub_fns, pub_fns_with_effects, pub_total_effects"

/-- Errors that abort the parse of one package's result stream in
`scan_crate` (scan.py lines 152-181): the two header assertions, the
trailing-output assertion, `StopIteration` raised by `next()` on an
exhausted stream, and `IndexError` raised by `split(", ")[3]`. -/
inductive ProtocolError where
  | unexpectedFindingHeader (hdr : String)
  | unexpectedMetadataHeader (hdr : String)
  | unexpectedEndOfStream
  | fieldIndexOutOfRange (line : String)
  | unexpectedTrailingOutput
deriving DecidableEq, Repr

/-- Whitespace characters stripped by Python `str.strip()` (the ASCII ones
occurring in line-oriented subprocess output). -/
def pyIsSpace (c : Char) : Bool :=
  c = ' ' || c = '\t' || c = '\n' || c = '\r'

/-- Python `str.strip()` on the character list of a string: drop leading and
trailing whitespace. -/
def stripChars (cs : List Char) : List Char :=
  ((cs.dropWhile pyIsSpace).reverse.dropWhile pyIsSpace).reverse

/-- Python `str.strip()` (scan.py line 158). -/
def strip (s : String) : String :=
  String.mk (stripChars s.data)

/-- Splitting a character list at each non-overlapping occurrence of the
two-character separator `", "`, left to right, accumulating the current
field in reverse. -/
def splitCSAux : List Char → List Char → List (List Char)
  | ',' :: ' ' :: rest, acc => acc.reverse :: splitCSAux rest []
  | c :: rest, acc => splitCSAux rest (c :: acc)
  | [], acc => [acc.reverse]

/-- Python `s.split(", ")` on the two-character separator (scan.py line 170). -/
def splitCS (s : String) : List String :=
  (splitCSAux s.data []).map String.mk

/-- The finding-line loop of `scan_crate` (scan.py lines 166-171): consume
lines until a blank line (`break`) or end of stream, decoding each into the
pair `(effect_pat, effect_csv)` where `effect_pat = effect_csv.split(", ")[3]`.
Returns the decoded pairs together with the lines remaining after the blank
separator (empty remainder when the loop ended at end of stream). -/
def readEffects : List String → Except ProtocolError (List (String × String) × List String)
  | [] => .ok ([], [])
  | l :: rest =>
    if l = "" then .ok ([], rest)
    else
      match (splitCS l).get? 3 with
      | none => .error (.fieldIndexOutOfRange l)
      | some pat =>
        match readEffects rest with
        | .error e => .error e
        | .ok (effs, rem) => .ok ((pat, l) :: effs, rem)

/-- Final state of the stream scanner: after the metadata row only end of
stream is accepted; the loop `for _ in stdout_lines: assert False` (scan.py
lines 178-179) fires on any remaining line. -/
def parseEnd (effects : List (String × String)) (metadata : String) :
    List String → Except ProtocolError (List (String × String) × String)
  | [] => .ok (effects, metadata)
  | _ :: _ => .error .unexpectedTrailingOutput

/-- State after the metadata header: `metadata = next(stdout_lines)`
(scan.py line 177) — `StopIteration` on an exhausted stream — then the
end-of-stream check. -/
def parseMetadataRow (effects : List (String × String)) :
    List String → Except ProtocolError (List (String × String) × String)
  | [] => .error .unexpectedEndOfStream
  | metadata :: rem3 => parseEnd effects metadata rem3

/-- State after the finding lines: `hdr = next(stdout_lines)` and the
metadata-header assertion (scan.py lines 174-175), then the metadata row. -/
def parseAfterEffects (effects : List (String × String)) :
    List String → Except ProtocolError (List (String × String) × String)
  | [] => .error .unexpectedEndOfStream
  | mhdr :: rem2 =>
    if mhdr ≠ CARGO_SCAN_METADATA_HEADER then .error (.unexpectedMetadataHeader mhdr)
    else parseMetadataRow effects rem2

/-- Plumbing of the result of the finding-line loop: an exception raised in
the loop propagates, otherwise parsing continues after the blank line. -/
def parseFromEffects :
    Except ProtocolError (List (String × String) × List String) →
      Except ProtocolError (List (String × String) × String)
  | .error e => .error e
  | .ok (effects, rem) => parseAfterEffects effects rem

/-- The scanner over the stripped lines: `hdr = next(stdout_lines)` —
`StopIteration` when the stream is empty — the finding-header assertion
(scan.py lines 162-163), then the finding lines and the rest. -/
def parseStream : List String → Except ProtocolError (List (String × String) × String)
  | [] => .error .unexpectedEndOfStream
  | hdr :: rest =>
    if hdr ≠ CARGO_SCAN_CSV_HEADER then .error (.unexpectedFindingHeader hdr)
    else parseFromEffects (readEffects rest)

/-- The per-package result-stream parser `scan_crate` (scan.py lines
152-181), over the list of raw lines of the subprocess's stdout: strip every
line, require the fixed finding header, read finding lines until a blank
line, require the fixed metadata header, read one metadata row, and require
end of stream. Returns the `(effect_pat, effect_csv)` pairs in stream order
together with the opaque metadata row. -/
def scan_crate (raw : List String) : Except ProtocolError (List (String × String) × String) :=
  parseStream (raw.map strip)

/-- Keys of an association list (a Python dict in insertion order). -/
def keys (d : List (String × α)) : List String :=
  d.map Prod.fst

/-- Sum of the counts of a summary dict (`sum(d.values())`, scan.py line 254). -/
def sumVals (d : List (String × Nat)) : Nat :=
  (d.map Prod.snd).sum

/-- Python `d[k] = v`: overwrite the value at an existing key, or append a
new key at the end (dict insertion order). -/
def setAssoc (d : List (String × α)) (k : String) (v : α) : List (String × α) :=
  if k ∈ keys d then d.map (fun p => if p.1 = k then (k, v) else p)
  else d ++ [(k, v)]

/-- Python `d.setdefault(k, 0)` (scan.py line 248). -/
def setdefault0 (d : List (String × Nat)) (k : String) : List (String × Nat) :=
  if k ∈ keys d then d else d ++ [(k, 0)]

/-- Python `d[k] += 1` on a key assumed present (scan.py lines 247, 249). -/
def incr (d : List (String × Nat)) (k : String) : List (String × Nat) :=
  d.map (fun p => if p.1 = k then (p.1, p.2 + 1) else p)

/-- The running state of the aggregation loop in `main` (scan.py lines
224-227): the raw finding list and the three summary dicts. -/
structure Summaries where
  results : List String
  crate_summary : List (String × Nat)
  pattern_summary : List (String × Nat)
  metadata_summary : List (String × String)
deriving DecidableEq, Repr

/-- The initial state of `main` (scan.py lines 224-227): empty results,
`\x7bc: 0 for c in crates\x7d`, `\x7b\x7d`, `\x7bc: "" for c in crates\x7d`. -/
def initSummaries (crates : List String) : Summaries where
  results := []
  crate_summary := crates.foldl (fun d c => setAssoc d c 0) []
  pattern_summary := []
  metadata_summary := crates.foldl (fun d c => setAssoc d c "") []

/-- One iteration of the per-finding loop body of `main` (scan.py lines
243-249): append the raw CSV line to `results`, increment the package
bucket, create the pattern bucket at 0 if new and increment it. -/
def applyFinding (s : Summaries) (crate eff_pat eff_csv : String) : Summaries :=
  { s with
    results := s.results ++ [eff_csv]
    crate_summary := incr s.crate_summary crate
    pattern_summary := incr (setdefault0 s.pattern_summary eff_pat) eff_pat }

/-- One observable state change of the aggregation loop of `main`: a decoded
finding folded into the summaries (scan.py lines 243-249), or the metadata
assignment for a package (scan.py line 251). -/
inductive ScanEvent where
  | finding (crate eff_pat eff_csv : String)
  | record_metadata (crate metadata : String)

/-- Apply one aggregation event to the running summaries. -/
def applyEvent (s : Summaries) : ScanEvent → Summaries
  | .finding crate eff_pat eff_csv => applyFinding s crate eff_pat eff_csv
  | .record_metadata crate metadata =>
    { s with metadata_summary := setAssoc s.metadata_summary crate metadata }

/-- Fold a sequence of aggregation events; every intermediate state of a run
is `foldEvents` of the initial state over a prefix of the run's events. -/
def foldEvents (s : Summaries) (es : List ScanEvent) : Summaries :=
  es.foldl applyEvent s

/-- Whether a finding event's package is one of the enumerated packages (the
loop of scan.py line 230 only scans packages of the initial list, so the
package bucket of every finding it folds exists). -/
def eventInRun (crates : List String) : ScanEvent → Prop
  | .finding crate _ _ => crate ∈ crates
  | .record_metadata _ _ => True

/-- The per-package fold of `main` (scan.py lines 242-251): fold each
decoded finding, then store the package's metadata row. -/
def foldCrate (s : Summaries) (crate : String) (effects : List (String × String)) (metadata : String) : Summaries :=
  let s2 := effects.foldl (fun acc e => applyFinding acc crate e.1 e.2) s
  { s2 with metadata_summary := setAssoc s2.metadata_summary crate metadata }

/-- The scanning loop of `main` (scan.py lines 230-251) over the packages
paired with the line streams their scans produce: returns the summaries
together with `some e` when an uncaught parse error aborted the run there
(the returned state is the state at the abort; scan_crate raises before
returning any finding, so nothing of the failing package is committed). -/
def runScans (s : Summaries) : List (String × List String) → Summaries × Option ProtocolError
  | [] => (s, none)
  | (crate, stream) :: rest =>
    match scan_crate stream with
    | .error e => (s, some e)
    | .ok (effects, metadata) => runScans (foldCrate s crate effects metadata) rest

/-- A full run of the aggregation loop (scan.py lines 224-251) from the
initial summaries of the enumerated package list. -/
def runAll (pkgs : List (String × List String)) : Summaries × Option ProtocolError :=
  runScans (initSummaries (pkgs.map Prod.fst)) pkgs

/-- The Boolean comparison `sort_summary_dict` sorts by: descending count
(the `key=lambda x: x[1], reverse=True` of scan.py line 114). -/
def descLE (a b : String × Nat) : Bool :=
  decide (b.2 ≤ a.2)

/-- Python `sorted(d.items(), key=lambda x: x[1], reverse=True)`
(`sort_summary_dict`, scan.py lines 113-114): a stable sort, descending by
value. Python's `sorted` is a stable sort and `List.mergeSort` is a stable
sort, and a stable sort by a total preorder has a unique result, so the two
compute the same list. -/
def sort_summary_dict (d : List (String × Nat)) : List (String × Nat) :=
  d.mergeSort descLE

/-- `make_pattern_summary` (scan.py lines 116-123): the two header lines
followed by one `"pattern: count"` line per entry of the sorted summary. -/
def make_pattern_summary (pattern_summary : List (String × Nat)) : String :=
  let r0 := "" ++ "===== Patterns =====\n" ++ "Total instances of each effect pattern:\n"
  (sort_summary_dict pattern_summary).foldl
    (fun r pn => r ++ (pn.1 ++ ": " ++ toString pn.2 ++ "\n")) r0

/-- `count_lines` (scan.py lines 85-90), over the list of lines of the
package list file: `len(fh.readlines())`, minus one when a header row is
assumed (the default). -/
def count_lines (file_lines : List String) (header_row : Bool := true) : Int :=
  (file_lines.length : Int) - (if header_row then 1 else 0)

/-- The loop of `get_crate_names` (scan.py lines 96-99): `enumerate` the CSV
rows, skip index 0 unconditionally, and append `row[0]` of every later row
(an `IndexError` on an empty row is modelled by `none`). -/
def getCrateNamesAux : Nat → List (List String) → Option (List String)
  | _, [] => some []
  | i, row :: rest =>
    if i > 0 then
      match row.head? with
      | none => none
      | some c =>
        match getCrateNamesAux (i + 1) rest with
        | none => none
        | some cs => some (c :: cs)
    else getCrateNamesAux (i + 1) rest

/-- `get_crate_names` (scan.py lines 92-100), over the parsed CSV rows of
the package list file. -/
def get_crate_names (rows : List (List String)) : Option (List String) :=
  getCrateNamesAux 0 rows

/-- Numeric values of the Python `logging` level constants appearing in the
level table of scan.py line 200 (`INFO, ERROR, WARNING, INFO, DEBUG`). -/
def LOG_LEVELS : List Nat := [20, 40, 30, 20, 10]

/-- Outcome of the verbosity handling in `main` (scan.py lines 197-200). -/
inductive VerbosityOutcome where
  | exitOne
  | uncaughtIndexError
  | accepted (log_level : Nat)
deriving DecidableEq, Repr

/-- The verbosity check and level-table lookup of `main` (scan.py lines
197-200): `args.verbose` is the number of `-v` flags (a natural number, 0
when absent). Values above 5 take the explicit `sys.exit(1)` branch;
otherwise the five-entry level table is indexed, which raises an uncaught
`IndexError` when the index is out of range (i.e. at verbosity 5). -/
def check_verbosity (verbose : Nat) : VerbosityOutcome :=
  if verbose > 5 then .exitOne
  else
    match LOG_LEVELS.get? verbose with
    | some l => .accepted l
    | none => .uncaughtIndexError

/-- Process exit status produced by each verbosity outcome: `sys.exit(1)`
terminates the process with status 1, and CPython terminates with status 1
when an uncaught exception ends the interpreter; `none` means execution
continues into the scanning run. -/
def exitStatus : VerbosityOutcome → Option Nat
  | .exitOne => some 1
  | .uncaughtIndexError => some 1
  | .accepted _ => none

/-- The field a finding line's pattern-kind is read from: index 3 (the
fourth column, 0-indexed) of the `", "`-split line (scan.py line 170) —
total when the line has at least four fields, which the parser checks by
raising on a shorter line. -/
def field3 (l : String) : String :=
  ((splitCS l).get? 3).getD ""

/-- The body lines of the rendered pattern report: one `"pattern: count"`
line per summary entry, in order. -/
def patternLines : List (String × Nat) → String
  | [] => ""
  | pn :: rest => pn.1 ++ ": " ++ toString pn.2 ++ "\n" ++ patternLines rest

/-- The invariant the aggregation loop of `main` maintains: the two count
summaries have duplicate-free key lists, every enumerated package has its
bucket in the package summary, and the two summaries have equal count sums. -/
def aggInvariant (crates : List String) (s : Summaries) : Prop :=
  (keys s.crate_summary).Nodup ∧
  (keys s.pattern_summary).Nodup ∧
  (∀ c ∈ crates, c ∈ keys s.crate_summary) ∧
  sumVals s.crate_summary = sumVals s.pattern_summary

end CargoScan

namespace CargoScan

theorem keys_incr (d : List (String × Nat)) (k : String) : keys (incr d k) = keys d := by
  induction d with
  | nil => rfl
  | cons p d ih =>
    by_cases h : p.1 = k <;> simp_all [keys, incr]

theorem incr_not_mem {d : List (String × Nat)} {k : String} (h : k ∉ keys d) : incr d k = d := by
  induction d with
  | nil => rfl
  | cons p d ih =>
    simp only [keys, List.map_cons, List.mem_cons, not_or] at h
    simp [incr, Ne.symm h.1]
    have := ih h.2
    simpa [incr] using this

theorem sumVals_cons (p : String × Nat) (d : List (String × Nat)) :
    sumVals (p :: d) = p.2 + sumVals d := by
  simp [sumVals]

theorem sumVals_incr {d : List (String × Nat)} {k : String}
    (hnd : (keys d).Nodup) (hk : k ∈ keys d) :
    sumVals (incr d k) = sumVals d + 1 := by
  induction d with
  | nil => simp [keys] at hk
  | cons p d ih =>
    simp only [keys, List.map_cons, List.nodup_cons] at hnd
    simp only [keys, List.map_cons, List.mem_cons] at hk
    by_cases h : p.1 = k
    · have hkd : k ∉ keys d := h ▸ hnd.1
      have : incr d k = d := incr_not_mem hkd
      simp [incr, h, sumVals_cons] at this ⊢
      simp [this]
      omega
    · rcases hk with hk | hk
      · exact absurd hk.symm h
      · have := ih hnd.2 hk
        simp [incr, h, sumVals_cons] at this ⊢
        simp [this]
        omega

theorem sumVals_setdefault0 (d : List (String × Nat)) (k : String) :
    sumVals (setdefault0 d k) = sumVals d := by
  by_cases h : k ∈ keys d <;> simp [setdefault0, h, sumVals]

theorem mem_keys_setdefault0 (d : List (String × Nat)) (k : String) :
    k ∈ keys (setdefault0 d k) := by
  by_cases h : k ∈ keys d
  · rw [setdefault0, if_pos h]; exact h
  · rw [setdefault0, if_neg h]; simp [keys]

theorem nodup_keys_setdefault0 {d : List (String × Nat)} (hnd : (keys d).Nodup) (k : String) :
    (keys (setdefault0 d k)).Nodup := by
  by_cases h : k ∈ keys d
  · simpa [setdefault0, h] using hnd
  · simp only [setdefault0, if_neg h, keys, List.map_append, List.map_cons, List.map_nil]
    simp only [keys] at hnd h
    simp [List.nodup_append, hnd, h]

theorem keys_map_update {α : Type} (d : List (String × α)) (k : String) (v : α) :
    keys (d.map (fun p => if p.1 = k then (k, v) else p)) = keys d := by
  simp only [keys, List.map_map]
  refine List.map_congr_left ?_
  intro p _
  by_cases hp : p.1 = k <;> simp [hp]

theorem keys_setAssoc_of_mem {α : Type} {d : List (String × α)} {k : String}
    (h : k ∈ keys d) (v : α) : keys (setAssoc d k v) = keys d := by
  rw [setAssoc, if_pos h, keys_map_update]

theorem keys_setAssoc_of_not_mem {α : Type} {d : List (String × α)} {k : String}
    (h : k ∉ keys d) (v : α) : keys (setAssoc d k v) = keys d ++ [k] := by
  rw [setAssoc, if_neg h]
  simp [keys]

theorem mem_keys_setAssoc_self {α : Type} (d : List (String × α)) (k : String) (v : α) :
    k ∈ keys (setAssoc d k v) := by
  by_cases h : k ∈ keys d
  · rw [keys_setAssoc_of_mem h]; exact h
  · rw [keys_setAssoc_of_not_mem h]; simp

theorem mem_keys_setAssoc_of_mem {α : Type} {d : List (String × α)} {c : String}
    (h : c ∈ keys d) (k : String) (v : α) : c ∈ keys (setAssoc d k v) := by
  by_cases hk : k ∈ keys d
  · rw [keys_setAssoc_of_mem hk]; exact h
  · rw [keys_setAssoc_of_not_mem hk]; simp [h]

theorem nodup_keys_setAssoc {α : Type} {d : List (String × α)} (hnd : (keys d).Nodup)
    (k : String) (v : α) : (keys (setAssoc d k v)).Nodup := by
  by_cases h : k ∈ keys d
  · rw [keys_setAssoc_of_mem h]; exact hnd
  · rw [keys_setAssoc_of_not_mem h]
    simp [List.nodup_append, hnd, h]

theorem mem_keys_foldl_setAssoc {α : Type} (v : α) (crates : List String) :
    ∀ (d : List (String × α)) (c : String),
      c ∈ crates ∨ c ∈ keys d → c ∈ keys (crates.foldl (fun d k => setAssoc d k v) d) := by
  induction crates with
  | nil =>
    intro d c h
    rcases h with h | h
    · simp at h
    · simpa using h
  | cons c0 cs ih =>
    intro d c h
    simp only [List.foldl_cons]
    apply ih
    rcases h with h | h
    · rcases List.mem_cons.mp h with h | h
      · subst h; right; exact mem_keys_setAssoc_self d c v
      · left; exact h
    · right; exact mem_keys_setAssoc_of_mem h c0 v

theorem nodup_keys_foldl_setAssoc {α : Type} (v : α) (crates : List String) :
    ∀ d : List (String × α), (keys d).Nodup →
      (keys (crates.foldl (fun d k => setAssoc d k v) d)).Nodup := by
  induction crates with
  | nil => intro d h; simpa using h
  | cons c0 cs ih =>
    intro d h
    simp only [List.foldl_cons]
    exact ih _ (nodup_keys_setAssoc h c0 v)

theorem vals_setAssoc_zero {d : List (String × Nat)} (h : ∀ p ∈ d, p.2 = 0) (k : String) :
    ∀ p ∈ setAssoc d k 0, p.2 = 0 := by
  intro p hp
  by_cases hk : k ∈ keys d
  · rw [setAssoc, if_pos hk] at hp
    rcases List.mem_map.mp hp with ⟨q, hq, rfl⟩
    by_cases hq1 : q.1 = k <;> simp [hq1, h q hq]
  · rw [setAssoc, if_neg hk] at hp
    rcases List.mem_append.mp hp with hp | hp
    · exact h p hp
    · simp only [List.mem_singleton] at hp
      simp [hp]

theorem vals_foldl_setAssoc_zero (crates : List String) :
    ∀ d : List (String × Nat), (∀ p ∈ d, p.2 = 0) →
      ∀ p ∈ crates.foldl (fun d k => setAssoc d k 0) d, p.2 = 0 := by
  induction crates with
  | nil => intro d h; simpa using h
  | cons c0 cs ih =>
    intro d h
    simp only [List.foldl_cons]
    exact ih _ (vals_setAssoc_zero h c0)

theorem sumVals_eq_zero {d : List (String × Nat)} (h : ∀ p ∈ d, p.2 = 0) : sumVals d = 0 := by
  rw [sumVals]
  apply List.sum_eq_zero
  intro x hx
  rcases List.mem_map.mp hx with ⟨p, hp, rfl⟩
  exact h p hp

theorem aggInvariant_init (crates : List String) : aggInvariant crates (initSummaries crates) := by
  refine ⟨?_, ?_, ?_, ?_⟩
  · exact nodup_keys_foldl_setAssoc 0 crates [] (by simp [keys])
  · simp [initSummaries, keys]
  · intro c hc
    exact mem_keys_foldl_setAssoc 0 crates [] c (Or.inl hc)
  · have h0 : sumVals ((initSummaries crates).crate_summary) = 0 :=
      sumVals_eq_zero (vals_foldl_setAssoc_zero crates [] (by simp))
    rw [h0]
    simp [initSummaries, sumVals]

theorem aggInvariant_applyFinding {crates : List String} {s : Summaries}
    (h : aggInvariant crates s) {crate : String} (hc : crate ∈ crates)
    (eff_pat eff_csv : String) :
    aggInvariant crates (applyFinding s crate eff_pat eff_csv) := by
  obtain ⟨h1, h2, h3, h4⟩ := h
  refine ⟨?_, ?_, ?_, ?_⟩
  · simpa [applyFinding, keys_incr] using h1
  · simp only [applyFinding]
    rw [keys_incr]
    exact nodup_keys_setdefault0 h2 eff_pat
  · intro c hcc
    simpa [applyFinding, keys_incr] using h3 c hcc
  · simp only [applyFinding]
    rw [sumVals_incr h1 (h3 crate hc),
      sumVals_incr (nodup_keys_setdefault0 h2 eff_pat) (mem_keys_setdefault0 _ _),
      sumVals_setdefault0, h4]

theorem aggInvariant_applyEvent {crates : List String} {s : Summaries}
    (h : aggInvariant crates s) {e : ScanEvent} (he : eventInRun crates e) :
    aggInvariant crates (applyEvent s e) := by
  cases e with
  | finding crate eff_pat eff_csv => exact aggInvariant_applyFinding h he eff_pat eff_csv
  | record_metadata crate metadata =>
    obtain ⟨h1, h2, h3, h4⟩ := h
    exact ⟨h1, h2, h3, h4⟩

theorem aggInvariant_foldEvents {crates : List String} (es : List ScanEvent) :
    ∀ {s : Summaries}, aggInvariant crates s → (∀ e ∈ es, eventInRun crates e) →
      aggInvariant crates (foldEvents s es) := by
  induction es with
  | nil => intro s h _; simpa [foldEvents] using h
  | cons e es ih =>
    intro s h hall
    simp only [foldEvents, List.foldl_cons] at ih ⊢
    exact ih (aggInvariant_applyEvent h (hall e (by simp)))
      (fun e' he' => hall e' (by simp [he']))

theorem aggInvariant_foldFindings {crates : List String} {crate : String}
    (hc : crate ∈ crates) (effects : List (String × String)) :
    ∀ {s : Summaries}, aggInvariant crates s →
      aggInvariant crates (effects.foldl (fun acc e => applyFinding acc crate e.1 e.2) s) := by
  induction effects with
  | nil => intro s h; simpa using h
  | cons e es ih =>
    intro s h
    simp only [List.foldl_cons]
    exact ih (aggInvariant_applyFinding h hc e.1 e.2)

theorem aggInvariant_foldCrate {crates : List String} {s : Summaries}
    (h : aggInvariant crates s) {crate : String} (hc : crate ∈ crates)
    (effects : List (String × String)) (metadata : String) :
    aggInvariant crates (foldCrate s crate effects metadata) := by
  rw [foldCrate]
  obtain ⟨h1, h2, h3, h4⟩ := aggInvariant_foldFindings hc effects h
  exact ⟨h1, h2, h3, h4⟩

theorem aggInvariant_runScans {crates : List String} (pkgs : List (String × List String)) :
    ∀ {s : Summaries}, aggInvariant crates s → (∀ p ∈ pkgs, p.1 ∈ crates) →
      aggInvariant crates (runScans s pkgs).1 := by
  induction pkgs with
  | nil => intro s h _; simpa [runScans] using h
  | cons p rest ih =>
    intro s h hall
    rcases p with ⟨crate, stream⟩
    rw [runScans]
    cases hsc : scan_crate stream with
    | error e => simpa using h
    | ok r =>
      rcases r with ⟨effects, metadata⟩
      exact ih (aggInvariant_foldCrate h (hall (crate, stream) (List.mem_cons_self _ _)) effects metadata)
        (fun q hq => hall q (List.mem_cons_of_mem _ hq))

/-- C1: at every point during a run and at run completion, the sum of the
counts in the pattern summary equals the sum of the counts in the package
summary. Every intermediate state of the aggregation loop is a fold of the
initial summaries over a prefix of the run's events (each decoded finding
increments exactly one pattern bucket, created at 0 if new, and exactly one
package bucket; metadata assignments touch no count), and every such fold
satisfies the equality; the state of a whole run — completed or aborted —
satisfies it as well. -/
theorem pattern_package_sums_agree (crates : List String) (events : List ScanEvent)
    (h : ∀ e ∈ events, eventInRun crates e) :
    sumVals (foldEvents (initSummaries crates) events).pattern_summary
      = sumVals (foldEvents (initSummaries crates) events).crate_summary ∧
    ∀ pkgs : List (String × List String),
      sumVals (runAll pkgs).1.pattern_summary = sumVals (runAll pkgs).1.crate_summary := by
  constructor
  · exact ((aggInvariant_foldEvents events (aggInvariant_init crates) h).2.2.2).symm
  · intro pkgs
    rw [runAll]
    have hinv := aggInvariant_runScans pkgs
      (aggInvariant_init (pkgs.map Prod.fst)) (fun p hp => List.mem_map_of_mem Prod.fst hp)
    exact hinv.2.2.2.symm

/-- Witness for C1: a concrete run state with one package and one folded
finding, whose two summary sums are equal. -/
theorem pattern_package_sums_agree_witness :
    sumVals (foldEvents (initSummaries ["my_crate"])
        [ScanEvent.finding "my_crate" "FileRead" "row"]).pattern_summary
      = sumVals (foldEvents (initSummaries ["my_crate"])
        [ScanEvent.finding "my_crate" "FileRead" "row"]).crate_summary :=
  (pattern_package_sums_agree ["my_crate"] [ScanEvent.finding "my_crate" "FileRead" "row"]
    (by intro e he; simp only [List.mem_singleton] at he; subst he; simp [eventInRun])).1

theorem strip_csv_header : strip CARGO_SCAN_CSV_HEADER = CARGO_SCAN_CSV_HEADER := rfl

theorem strip_metadata_header : strip CARGO_SCAN_METADATA_HEADER = CARGO_SCAN_METADATA_HEADER := rfl

theorem strip_empty : strip "" = "" := rfl

theorem map_strip_fixed {ls : List String} (h : ∀ l ∈ ls, strip l = l) : ls.map strip = ls :=
  (List.map_congr_left h).trans (List.map_id ls)

theorem runScans_abort {raw : List String} {e : ProtocolError}
    (hsc : scan_crate raw = .error e) (s : Summaries) (c : String)
    (rest : List (String × List String)) :
    runScans s ((c, raw) :: rest) = (s, some e) := by
  rw [runScans, hsc]

theorem readEffects_no_blank (ls : List String) (hmem : "" ∉ ls) :
    ∀ {effs rem}, readEffects ls = .ok (effs, rem) → rem = [] := by
  induction ls with
  | nil =>
    intro effs rem h
    rw [readEffects] at h
    cases h
    rfl
  | cons l rest ih =>
    intro effs rem h
    simp only [List.mem_cons, not_or] at hmem
    rw [readEffects, if_neg (fun hl => hmem.1 hl.symm)] at h
    cases hg : (splitCS l).get? 3 with
    | none => rw [hg] at h; cases h
    | some pat =>
      rw [hg] at h
      cases hre : readEffects rest with
      | error e => rw [hre] at h; cases h
      | ok pr =>
        rcases pr with ⟨effs2, rem2⟩
        rw [hre] at h
        cases h
        exact ih hmem.2 hre

theorem readEffects_body_append (body : List String)
    (hb : ∀ l ∈ body, l ≠ "" ∧ 4 ≤ (splitCS l).length) (rest : List String) :
    readEffects (body ++ "" :: rest)
      = .ok (body.map (fun l => (field3 l, l)), rest) := by
  induction body with
  | nil => rw [List.nil_append, readEffects, if_pos rfl]; rfl
  | cons l body ih =>
    obtain ⟨hne, hlen⟩ := hb l (by simp)
    obtain ⟨a, hg⟩ : ∃ a, (splitCS l).get? 3 = some a := by
      cases hg0 : (splitCS l).get? 3 with
      | none => rw [List.get?_eq_none] at hg0; omega
      | some a => exact ⟨a, rfl⟩
    have hfa : field3 l = a := by rw [field3, hg]; rfl
    rw [List.cons_append, readEffects, if_neg hne, hg,
      ih (fun l2 hl2 => hb l2 (by simp [hl2]))]
    simp [hfa]

theorem scan_crate_ok_of_shape {raw : List String} {body : List String} {meta : String}
    (hr : raw.map strip = CARGO_SCAN_CSV_HEADER :: body ++ "" :: [CARGO_SCAN_METADATA_HEADER, meta])
    (hb : ∀ l ∈ body, l ≠ "" ∧ 4 ≤ (splitCS l).length) :
    scan_crate raw = .ok (body.map (fun l => (field3 l, l)), meta) := by
  rw [scan_crate, hr]
  simp [parseStream, parseFromEffects, parseAfterEffects, parseMetadataRow,
    parseEnd, readEffects_body_append body hb]

theorem scan_crate_trailing_of_shape {raw : List String} {b : List String}
    {m t : String} {u : List String}
    (hr : raw.map strip
      = CARGO_SCAN_CSV_HEADER :: b ++ "" :: CARGO_SCAN_METADATA_HEADER :: m :: t :: u)
    (hb : ∀ l ∈ b, l ≠ "" ∧ 4 ≤ (splitCS l).length) :
    scan_crate raw = .error .unexpectedTrailingOutput := by
  rw [scan_crate, hr]
  simp [parseStream, parseFromEffects, parseAfterEffects, parseMetadataRow,
    parseEnd, readEffects_body_append b hb]

theorem scan_crate_bad_metadata_header {raw : List String} {b : List String}
    {m : String} {u : List String}
    (hr : raw.map strip = CARGO_SCAN_CSV_HEADER :: b ++ "" :: m :: u)
    (hb : ∀ l ∈ b, l ≠ "" ∧ 4 ≤ (splitCS l).length)
    (hm : m ≠ CARGO_SCAN_METADATA_HEADER) :
    scan_crate raw = .error (.unexpectedMetadataHeader m) := by
  rw [scan_crate, hr]
  simp [parseStream, parseFromEffects, parseAfterEffects, parseMetadataRow,
    parseEnd, readEffects_body_append b hb, hm]

theorem scan_crate_error_no_blank {raw : List String}
    (h : "" ∉ (raw.map strip).drop 1) : ∃ e, scan_crate raw = .error e := by
  cases hr : raw.map strip with
  | nil => exact ⟨.unexpectedEndOfStream, by rw [scan_crate, hr]; rfl⟩
  | cons hd tl =>
    rw [hr, List.drop_one, List.tail_cons] at h
    by_cases hh : hd = CARGO_SCAN_CSV_HEADER
    · subst hh
      cases hre : readEffects tl with
      | error e =>
        exact ⟨e, by
          rw [scan_crate, hr]
          simp [parseStream, hre, parseFromEffects]⟩
      | ok pr =>
        rcases pr with ⟨effs, rem⟩
        have hrem : rem = [] := readEffects_no_blank tl h hre
        subst hrem
        exact ⟨.unexpectedEndOfStream, by
          rw [scan_crate, hr]
          simp [parseStream, hre, parseFromEffects, parseAfterEffects]⟩
    · exact ⟨.unexpectedFindingHeader hd, by
        rw [scan_crate, hr]
        simp [parseStream, hh]⟩

theorem strip_fixed_shape {body : List String} {meta : String}
    (hb : ∀ l ∈ body, strip l = l) (hm : strip meta = meta) :
    (CARGO_SCAN_CSV_HEADER :: body ++ "" :: [CARGO_SCAN_METADATA_HEADER, meta]).map strip
      = CARGO_SCAN_CSV_HEADER :: body ++ "" :: [CARGO_SCAN_METADATA_HEADER, meta] := by
  apply map_strip_fixed
  intro l hl
  rcases List.mem_cons.mp hl with rfl | hl
  · exact strip_csv_header
  rcases List.mem_append.mp hl with hl | hl
  · exact hb l hl
  rcases List.mem_cons.mp hl with rfl | hl
  · exact strip_empty
  rcases List.mem_cons.mp hl with rfl | hl
  · exact strip_metadata_header
  rcases List.mem_cons.mp hl with rfl | hl
  · exact hm
  · exact absurd hl (List.not_mem_nil l)

/-- C2: a per-package result stream missing the blank-line separator (no
blank line anywhere after the first line), or a well-formed stream with an
extra trailing non-empty line after the metadata row, always makes
`scan_crate` fail with a `ProtocolError`, and the run aborts with the
running summaries exactly as they were before that package started: zero
Findings of that package are committed (all-or-nothing per package). -/
theorem malformed_stream_commits_nothing (raw : List String) (c : String)
    (rest : List (String × List String)) (s : Summaries)
    (h : "" ∉ (raw.map strip).drop 1 ∨
      ∃ body meta trailing, raw.map strip
          = CARGO_SCAN_CSV_HEADER :: body ++ "" :: CARGO_SCAN_METADATA_HEADER :: meta :: trailing
        ∧ (∀ l ∈ body, l ≠ "" ∧ 4 ≤ (splitCS l).length)
        ∧ ∃ t ∈ trailing, t ≠ "") :
    ∃ e, scan_crate raw = .error e ∧ runScans s ((c, raw) :: rest) = (s, some e) := by
  have herr : ∃ e, scan_crate raw = .error e := by
    rcases h with h | ⟨body, meta, trailing, hr, hb, ht⟩
    · exact scan_crate_error_no_blank h
    · rcases trailing with _ | ⟨t, ts⟩
      · rcases ht with ⟨t, ht, -⟩
        simp at ht
      · exact ⟨.unexpectedTrailingOutput, scan_crate_trailing_of_shape hr hb⟩
  rcases herr with ⟨e, he⟩
  exact ⟨e, he, runScans_abort he s c rest⟩

/-- Witness for C2: a concrete stream whose blank separator is missing
aborts the run with the summaries untouched. -/
theorem malformed_stream_commits_nothing_witness :
    ∃ e, scan_crate [CARGO_SCAN_CSV_HEADER,
        "my_crate, f, g, FileRead, ./, a.rs, 10, 4", CARGO_SCAN_METADATA_HEADER,
        "5, 1,1,0"] = .error e
      ∧ runScans (initSummaries ["my_crate"])
          [("my_crate", [CARGO_SCAN_CSV_HEADER,
            "my_crate, f, g, FileRead, ./, a.rs, 10, 4", CARGO_SCAN_METADATA_HEADER,
            "5, 1,1,0"])]
          = (initSummaries ["my_crate"], some e) :=
  malformed_stream_commits_nothing _ "my_crate" [] _ (Or.inl (by decide))

/-- C3: every well-formed per-package stream — the fixed finding header,
zero or more non-blank finding lines, a blank line, the fixed metadata
header, one metadata row, end of stream — parses into a sequence of
Findings whose length equals the number of non-blank lines between the two
headers, in stream order, plus exactly one metadata record. -/
theorem wellformed_stream_parse (body : List String) (meta : String)
    (hb : ∀ l ∈ body, strip l = l ∧ l ≠ "" ∧ (splitCS l).length = 8)
    (hm : strip meta = meta) :
    ∃ effs,
      scan_crate (CARGO_SCAN_CSV_HEADER :: body ++ "" :: [CARGO_SCAN_METADATA_HEADER, meta])
          = .ok (effs, meta)
        ∧ effs.length = body.length ∧ effs.map Prod.snd = body := by
  refine ⟨body.map (fun l => (field3 l, l)), ?_, by simp,
    by rw [List.map_map]; exact List.map_id'' (fun l => rfl) body⟩
  apply scan_crate_ok_of_shape
  · exact strip_fixed_shape (fun l hl => (hb l hl).1) hm
  · intro l hl
    obtain ⟨-, h1, h2⟩ := hb l hl
    exact ⟨h1, by omega⟩

/-- Witness for C3: the scenario stream with one finding line parses into
one Finding and one metadata record. -/
theorem wellformed_stream_parse_witness :
    ∃ effs,
      scan_crate (CARGO_SCAN_CSV_HEADER
            :: ["my_crate, f, g, FileRead, ./, a.rs, 10, 4"]
            ++ "" :: [CARGO_SCAN_METADATA_HEADER,
                "5, 1,1,0,0,0,0,0,0,0,0,0,0,0,0,0,0,0,0,0,1,1,0"])
          = .ok (effs, "5, 1,1,0,0,0,0,0,0,0,0,0,0,0,0,0,0,0,0,0,1,1,0")
        ∧ effs.length = ["my_crate, f, g, FileRead, ./, a.rs, 10, 4"].length
        ∧ effs.map Prod.snd = ["my_crate, f, g, FileRead, ./, a.rs, 10, 4"] :=
  wellformed_stream_parse ["my_crate, f, g, FileRead, ./, a.rs, 10, 4"]
    "5, 1,1,0,0,0,0,0,0,0,0,0,0,0,0,0,0,0,0,0,1,1,0" (by decide) (by decide)

/-- C4: every finding line decoded by the parser gets as pattern-kind the
field at index 3 (the fixed 4th column position, 0-indexed) of the
comma-space-split line; in particular the scenario stream with data line
`"my_crate, f, g, FileRead, ./, a.rs, 10, 4"` yields exactly one Finding
whose pattern-kind is `FileRead`. -/
theorem pattern_kind_is_fourth_field (body : List String) (meta : String)
    (hb : ∀ l ∈ body, strip l = l ∧ l ≠ "" ∧ 4 ≤ (splitCS l).length)
    (hm : strip meta = meta) :
    scan_crate (CARGO_SCAN_CSV_HEADER :: body ++ "" :: [CARGO_SCAN_METADATA_HEADER, meta])
        = .ok (body.map (fun l => (field3 l, l)), meta) ∧
    scan_crate [CARGO_SCAN_CSV_HEADER, "my_crate, f, g, FileRead, ./, a.rs, 10, 4", "",
        CARGO_SCAN_METADATA_HEADER, "5, 1,1,0,0,0,0,0,0,0,0,0,0,0,0,0,0,0,0,0,1,1,0"]
      = .ok ([("FileRead", "my_crate, f, g, FileRead, ./, a.rs, 10, 4")],
          "5, 1,1,0,0,0,0,0,0,0,0,0,0,0,0,0,0,0,0,0,1,1,0") := by
  constructor
  · apply scan_crate_ok_of_shape
    · exact strip_fixed_shape (fun l hl => (hb l hl).1) hm
    · exact fun l hl => ⟨(hb l hl).2.1, (hb l hl).2.2⟩
  · rfl

/-- Witness for C4: the general conjunct evaluated at the scenario data
line. -/
theorem pattern_kind_is_fourth_field_witness :
    scan_crate (CARGO_SCAN_CSV_HEADER
          :: ["my_crate, f, g, FileRead, ./, a.rs, 10, 4"]
          ++ "" :: [CARGO_SCAN_METADATA_HEADER, "0"])
        = .ok (["my_crate, f, g, FileRead, ./, a.rs, 10, 4"].map
            (fun l => (field3 l, l)), "0") :=
  (pattern_kind_is_fourth_field ["my_crate, f, g, FileRead, ./, a.rs, 10, 4"] "0"
    (by decide) (by decide)).1

/-- C5 counterexample: a well-formed stream followed by a single EMPTY
trailing line is nevertheless rejected with the trailing-output
`ProtocolError` — the code raises on any trailing line whatsoever, so it is
not exactly the non-empty trailing lines that are protocol violations. -/
theorem empty_trailing_line_rejected :
    scan_crate [CARGO_SCAN_CSV_HEADER, "", CARGO_SCAN_METADATA_HEADER,
        "5, 1,1,0,0,0,0,0,0,0,0,0,0,0,0,0,0,0,0,0,1,1,0", ""]
      = .error .unexpectedTrailingOutput := rfl

/-- C5 (amended): after the single metadata row the parser accepts only end
of stream: any additional line after the metadata row — whether empty or
non-empty — yields the trailing-output `ProtocolError`, which aborts
processing of that package. -/
theorem trailing_line_protocol_error (body : List String) (meta extra : String)
    (more : List String)
    (hb : ∀ l ∈ body, strip l = l ∧ l ≠ "" ∧ 4 ≤ (splitCS l).length)
    (hm : strip meta = meta) :
    scan_crate (CARGO_SCAN_CSV_HEADER
        :: body ++ "" :: CARGO_SCAN_METADATA_HEADER :: meta :: extra :: more)
      = .error .unexpectedTrailingOutput := by
  apply scan_crate_trailing_of_shape (b := body) (m := meta)
    (t := strip extra) (u := more.map strip)
  · simp only [List.map_cons, List.map_append]
    rw [strip_csv_header, strip_empty, strip_metadata_header, hm,
      map_strip_fixed (fun l hl => (hb l hl).1)]
  · exact fun l hl => ⟨(hb l hl).2.1, (hb l hl).2.2⟩

/-- Witness for C5's amended theorem: a concrete stream with one non-empty
trailing line is rejected with the trailing-output error. -/
theorem trailing_line_protocol_error_witness :
    scan_crate (CARGO_SCAN_CSV_HEADER
        :: [] ++ "" :: CARGO_SCAN_METADATA_HEADER :: "0" :: "tail" :: [])
      = .error .unexpectedTrailingOutput :=
  trailing_line_protocol_error [] "0" "tail" [] (by decide) (by decide)

/-- C7: parsing fails with the finding-header `ProtocolError` whenever the
first (stripped) line of the stream differs from the fixed finding header;
it fails with the metadata-header `ProtocolError` whenever the (stripped)
line immediately after the blank separator differs from the fixed metadata
header; and when both headers match, the parse of those lines succeeds. -/
theorem header_mismatch_errors (x m meta : String) (rest rest2 body : List String)
    (hb : ∀ l ∈ body, strip l = l ∧ l ≠ "" ∧ 4 ≤ (splitCS l).length)
    (hm : strip meta = meta) :
    (strip x ≠ CARGO_SCAN_CSV_HEADER →
      scan_crate (x :: rest) = .error (.unexpectedFindingHeader (strip x))) ∧
    (strip m ≠ CARGO_SCAN_METADATA_HEADER →
      scan_crate (CARGO_SCAN_CSV_HEADER :: body ++ "" :: m :: rest2)
        = .error (.unexpectedMetadataHeader (strip m))) ∧
    scan_crate (CARGO_SCAN_CSV_HEADER :: body ++ "" :: [CARGO_SCAN_METADATA_HEADER, meta])
      = .ok (body.map (fun l => (field3 l, l)), meta) := by
  refine ⟨?_, ?_, ?_⟩
  · intro hx
    rw [scan_crate, List.map_cons]
    simp [parseStream, hx]
  · intro hmm
    apply scan_crate_bad_metadata_header (b := body) (u := rest2.map strip)
    · simp only [List.map_cons, List.map_append]
      rw [strip_csv_header, strip_empty,
        map_strip_fixed (fun l hl => (hb l hl).1)]
    · exact fun l hl => ⟨(hb l hl).2.1, (hb l hl).2.2⟩
    · exact hmm
  · apply scan_crate_ok_of_shape
    · exact strip_fixed_shape (fun l hl => (hb l hl).1) hm
    · exact fun l hl => ⟨(hb l hl).2.1, (hb l hl).2.2⟩

/-- Witness for C7: a wrong finding header, a wrong metadata header, and a
stream with both headers correct. -/
theorem header_mismatch_errors_witness :
    scan_crate ["bad"] = .error (.unexpectedFindingHeader (strip "bad")) ∧
    scan_crate (CARGO_SCAN_CSV_HEADER :: [] ++ "" :: "badmeta" :: [])
      = .error (.unexpectedMetadataHeader (strip "badmeta")) ∧
    scan_crate (CARGO_SCAN_CSV_HEADER :: [] ++ "" :: [CARGO_SCAN_METADATA_HEADER, "0"])
      = .ok (([] : List String).map (fun l => (field3 l, l)), "0") :=
  ⟨(header_mismatch_errors "bad" "badmeta" "0" [] [] [] (by decide) (by decide)).1
      (by decide),
   (header_mismatch_errors "bad" "badmeta" "0" [] [] [] (by decide) (by decide)).2.1
      (by decide),
   (header_mismatch_errors "bad" "badmeta" "0" [] [] [] (by decide) (by decide)).2.2⟩

theorem descLE_trans (a b c : String × Nat) : descLE a b → descLE b c → descLE a c := by
  simp only [descLE, decide_eq_true_eq]
  omega

theorem descLE_total (a b : String × Nat) : descLE a b || descLE b a := by
  simp only [descLE]
  rcases Nat.le_total b.2 a.2 with h | h <;> simp [h]

theorem foldl_append_patternLines (xs : List (String × Nat)) :
    ∀ r : String, xs.foldl (fun r pn => r ++ (pn.1 ++ ": " ++ toString pn.2 ++ "\n")) r
      = r ++ patternLines xs := by
  induction xs with
  | nil => intro r; simp [patternLines]
  | cons pn xs ih =>
    intro r
    rw [List.foldl_cons, ih, patternLines]
    simp [String.append_assoc]

/-- C6: the CLI accepts every verbosity level 0 through 4 (the level table
is indexed successfully and the run proceeds), and the process exits with
status code 1 for every invalid verbosity value, i.e. every count above 4:
counts of 6 and above take the explicit `sys.exit(1)` branch, and the count
5 slips past the `> 5` guard and raises an uncaught `IndexError` when the
five-entry level table is indexed, which also terminates CPython with
status 1. -/
theorem verbosity_accept_and_exit (v : Nat) :
    (v ≤ 4 → ∃ l, check_verbosity v = .accepted l) ∧
    (4 < v → exitStatus (check_verbosity v) = some 1) := by
  constructor
  · intro h
    interval_cases v <;> exact ⟨_, rfl⟩
  · intro h
    by_cases h5 : v > 5
    · simp [check_verbosity, h5, exitStatus]
    · have h5' : v = 5 := by omega
      subst h5'
      rfl

/-- Witness for C6: verbosity 3 is accepted; verbosity 5 and verbosity 7
exit with status 1. -/
theorem verbosity_accept_and_exit_witness :
    (∃ l, check_verbosity 3 = .accepted l) ∧
    exitStatus (check_verbosity 5) = some 1 ∧
    exitStatus (check_verbosity 7) = some 1 :=
  ⟨(verbosity_accept_and_exit 3).1 (by decide),
   (verbosity_accept_and_exit 5).2 (by decide),
   (verbosity_accept_and_exit 7).2 (by decide)⟩

/-- C8: the rendered pattern report is the two header lines followed by one
"pattern: count" line per pattern-kind of the summary; the rendered order is
the summary sorted by count descending, with ties between equal counts
broken by the pattern-kinds insertion order into the summary (a stable
sort): the sorted list is a permutation of the summary, its counts are
non-increasing, and restricting it to the entries of any fixed count yields
them in the summary original order. -/
theorem pattern_report_sorted_stable (d : List (String × Nat)) :
    make_pattern_summary d
      = "===== Patterns =====\nTotal instances of each effect pattern:\n"
        ++ patternLines (sort_summary_dict d) ∧
    (sort_summary_dict d).Perm d ∧
    (sort_summary_dict d).Pairwise (fun a b => b.2 ≤ a.2) ∧
    ∀ n : Nat, (sort_summary_dict d).filter (fun pn => pn.2 == n)
      = d.filter (fun pn => pn.2 == n) := by
  refine ⟨?_, List.mergeSort_perm d descLE, ?_, ?_⟩
  · simp only [make_pattern_summary]
    rw [foldl_append_patternLines]
    congr 1
  · have hs := List.sorted_mergeSort descLE_trans descLE_total d
    exact hs.imp (fun h => by simpa [descLE] using h)
  · intro n
    have hmemf : ∀ x ∈ d.filter (fun pn : String × Nat => pn.2 == n), x.2 = n := by
      intro x hx
      have := (List.mem_filter.mp hx).2
      simpa using this
    have hpair : (d.filter (fun pn : String × Nat => pn.2 == n)).Pairwise
        (fun a b => descLE a b) := by
      apply List.pairwise_of_forall_mem_list
      intro a ha b hb
      simp only [descLE, decide_eq_true_eq]
      rw [hmemf a ha, hmemf b hb]
    have hsub : (d.filter (fun pn : String × Nat => pn.2 == n)).Sublist (sort_summary_dict d) :=
      List.sublist_mergeSort descLE_trans descLE_total hpair (List.filter_sublist d)
    have hfil : (d.filter (fun pn : String × Nat => pn.2 == n)).Sublist
        ((sort_summary_dict d).filter (fun pn => pn.2 == n)) := by
      have h2 := List.Sublist.filter (fun pn : String × Nat => pn.2 == n) hsub
      have hself : (d.filter (fun pn : String × Nat => pn.2 == n)).filter
          (fun pn : String × Nat => pn.2 == n)
          = d.filter (fun pn : String × Nat => pn.2 == n) := by
        apply List.filter_eq_self.mpr
        intro a ha
        exact (List.mem_filter.mp ha).2
      rwa [hself] at h2
    have hperm : ((sort_summary_dict d).filter (fun pn => pn.2 == n)).Perm
        (d.filter (fun pn : String × Nat => pn.2 == n)) :=
      List.Perm.filter _ (List.mergeSort_perm d descLE)
    exact (List.Sublist.eq_of_length hfil hperm.length_eq.symm).symm

/-- C9: for a package list file with 3 data rows and a header row (4 lines
in total) the reported package count is 3, not 4: the count is the file
total line count minus one for the assumed header row. -/
theorem package_count_excludes_header (file_lines : List String)
    (h : file_lines.length = 4) :
    count_lines file_lines true = 3
      ∧ count_lines file_lines true = (file_lines.length : Int) - 1 := by
  constructor <;> simp [count_lines, h]

/-- Witness for C9: a concrete file of one header row and three data rows. -/
theorem package_count_excludes_header_witness :
    count_lines ["name, downloads", "a, 1", "b, 2", "c, 3"] true = 3
      ∧ count_lines ["name, downloads", "a, 1", "b, 2", "c, 3"] true
        = ((["name, downloads", "a, 1", "b, 2", "c, 3"] : List String).length : Int) - 1 :=
  package_count_excludes_header ["name, downloads", "a, 1", "b, 2", "c, 3"] rfl

theorem getCrateNamesAux_pos (rows : List (List String)) :
    ∀ i : Nat, 0 < i → (∀ r ∈ rows, r ≠ []) →
      getCrateNamesAux i rows = some (rows.map (fun r => r.headD "")) := by
  induction rows with
  | nil => intro i _ _; rfl
  | cons row rest ih =>
    intro i hi hr
    rw [getCrateNamesAux, if_pos hi]
    cases row with
    | nil => exact absurd rfl (hr [] (by simp))
    | cons a as =>
      rw [ih (i + 1) (by omega) (fun r h => hr r (by simp [h]))]
      simp

/-- C10: `get_crate_names` skips the first line of the package list file
unconditionally, whatever its content: the enumerated package list is
exactly the first column of rows 2 through n, so a file whose first row is
a data row (no header) silently loses that package — concretely, a file of
two data rows enumerates only the second. -/
theorem first_row_always_skipped (rows : List (List String))
    (h : ∀ r ∈ rows.drop 1, r ≠ []) :
    get_crate_names rows = some ((rows.drop 1).map (fun r => r.headD "")) ∧
    get_crate_names [["pkg_a", "0.1"], ["pkg_b", "0.2"]] = some ["pkg_b"] := by
  constructor
  · cases rows with
    | nil => rfl
    | cons row rest =>
      rw [get_crate_names, getCrateNamesAux, if_neg (by omega)]
      simp only [List.drop_succ_cons, List.drop_zero] at h ⊢
      exact getCrateNamesAux_pos rest 1 (by omega) h
  · rfl

/-- Witness for C10 at a concrete headerless file: the first data row is
dropped. -/
theorem first_row_always_skipped_witness :
    get_crate_names [["name", "downloads"], ["serde", "1"]]
      = some (([["name", "downloads"], ["serde", "1"]].drop 1).map (fun r => r.headD "")) :=
  (first_row_always_skipped [["name", "downloads"], ["serde", "1"]] (by decide)).1

end CargoScan
